import Mathlib

/-
Verification development for the InsightPioneer sitemap-monitoring core.

The definitions below are a shallow embedding of the Python source:
  * `app/scrapers/sitemap/parser.py`  — the recursive sitemap walk
    (`SitemapParser.fetch_and_parse_sitemap` with inner `process_sitemap`)
    and `SitemapParser.fetch_sitemap` (gzip handling);
  * `app/scrapers/sitemap/crawler.py` — the URL-diff loop of
    `SitemapCrawler.process_site`, its commit sequence and its error branch;
  * `app/utils/http.py`               — `make_request` under the tenacity
    retry decorator `stop_after_attempt(3)` /
    `wait_exponential(multiplier=1, min=2, max=10)`.

External effects are modelled explicitly: the network is a finite map from
sitemap URL to fetch outcome, `utc_now()` is a monotone clock read at
successive call indices, and database commits are an oracle saying whether
the k-th `session.commit()` call succeeds.
-/

namespace InsightPioneer

/-- A sitemap entry as produced by `SitemapParser.parse_sitemap`: a dict with
a mandatory `url` and an optional `lastmod` string. -/
structure SitemapEntry where
  url : String
  lastmod : Option String
deriving DecidableEq, Repr

/-! ## URL-diff engine (`SitemapCrawler.process_site`, crawler.py lines 257-293)

`DiscoveredPage` rows carry the columns the diff loop touches; times are
modelled as `Nat` instants. `utc_now()` is modelled by reading a clock
function at the next call index, threaded through the loop state, so the
relative order of the `utc_now()` calls in the source is preserved. -/

/-- A `DiscoveredPage` row (models/site.py): url, optional title,
first-discovered and last-seen instants, processed flag. -/
structure PageRec where
  url : String
  page_title : Option String
  first_discovered_at : Nat
  last_seen_at : Nat
  is_processed : Bool
deriving DecidableEq, Repr

/-- State threaded through the diff loop of `process_site`: the session's
`DiscoveredPage` rows for the site, the `new_pages` accumulator, the list of
URLs whose `last_seen_at` was refreshed (in order), and the index of the next
`utc_now()` call. -/
structure CycleState where
  pages : List PageRec
  new_pages : List PageRec
  refreshed : List String
  idx : Nat
deriving DecidableEq, Repr

/-- The session update in the reseen branch: `page.last_seen_at = utc_now()`
applied to the first row matching the URL (the `(site, url)` pair is unique
by the `uix_site_url` constraint, so at most one row matches). -/
def update_last_seen (u : String) (t : Nat) : List PageRec → List PageRec
  | [] => []
  | p :: ps =>
    if p.url = u then { p with last_seen_at := t } :: ps
    else p :: update_last_seen u t ps

/-- One iteration of the `for entry in sitemap_entries` loop in
`process_site` (crawler.py lines 257-293).  `existing_urls` is the key set of
the map loaded by `get_existing_urls`; membership is exact string equality.
In the reseen branch the session is queried for the row and, if found, its
`last_seen_at` is set to `utc_now()`.  In the new branch a `DiscoveredPage`
is created with `page_title=None`, `first_discovered_at=utc_now()`,
`last_seen_at=utc_now()` (two separate calls, in that order) and
`is_processed=0`, then appended to `new_pages`. -/
def process_entry (clock : Nat → Nat) (existing_urls : List String)
    (e : SitemapEntry) (st : CycleState) : CycleState :=
  if e.url ∈ existing_urls then
    if e.url ∈ st.pages.map PageRec.url then
      { st with
          pages := update_last_seen e.url (clock st.idx) st.pages,
          refreshed := st.refreshed ++ [e.url],
          idx := st.idx + 1 }
    else st
  else
    let p : PageRec := ⟨e.url, none, clock st.idx, clock (st.idx + 1), false⟩
    { st with
        pages := st.pages ++ [p],
        new_pages := st.new_pages ++ [p],
        idx := st.idx + 2 }

/-- The whole diff loop over the sitemap entries, in order. -/
def diff_loop (clock : Nat → Nat) (existing_urls : List String) :
    List SitemapEntry → CycleState → CycleState
  | [], st => st
  | e :: es, st => diff_loop clock existing_urls es (process_entry clock existing_urls e st)

/-- The diff portion of `process_site`: `start_time = utc_now()` is the call
at index 0, `existing_urls` is derived from the site's current rows
(`get_existing_urls`), and the loop starts with the next call index. -/
def run_diff (clock : Nat → Nat) (pages0 : List PageRec)
    (entries : List SitemapEntry) : CycleState :=
  diff_loop clock (pages0.map PageRec.url) entries ⟨pages0, [], [], 1⟩

/-- Model of `self.start_time = utc_now()` — the first `utc_now()` call of the cycle. -/
def cycle_start_time (clock : Nat → Nat) : Nat := clock 0

/-! ## Recursive sitemap walk (`SitemapParser.fetch_and_parse_sitemap`,
parser.py lines 214-265)

The network is a finite association list from sitemap URL to fetch outcome:
a URL whose fetch fails (or which the map does not mention) yields
`FetchResult.failure` (the `None` of `fetch_sitemap`); otherwise the fetched
document is either a sitemap index (`is_sitemap_index` true, with the child
URLs extracted by `parse_sitemap_index`) or a regular sitemap (with the
entries extracted by `parse_sitemap`; a parse failure is `leafDoc []`, since
`parse_sitemap` returns an empty list on malformed XML).

The inner `process_sitemap` recursion of the source has no depth limit; the
embedding adds a fuel parameter and an `ok` flag recording whether the fuel
cut-off was ever reached, so that termination of the source recursion can be
stated: with fuel exceeding the number of distinct URLs in the world the
cut-off is never hit and the result is stable under more fuel. -/

/-- Outcome of `fetch_sitemap` plus classification of the document. -/
inductive FetchResult where
  | failure : FetchResult
  | indexDoc : List String → FetchResult
  | leafDoc : List SitemapEntry → FetchResult
deriving DecidableEq, Repr

/-- Fetching a URL against the modelled network. -/
def fetchW (world : List (String × FetchResult)) (u : String) : FetchResult :=
  match world.lookup u with
  | some r => r
  | none => FetchResult.failure

/-- State of the walk: `processed_sitemaps` (as an insertion-ordered list),
the `all_urls` accumulator, the log of URLs whose fetch was attempted (in
order), and the flag recording that the artificial fuel cut-off was never
reached. -/
structure WalkState where
  visited : List String
  all_urls : List SitemapEntry
  fetched : List String
  ok : Bool
deriving DecidableEq, Repr

mutual

/-- The inner `process_sitemap(url, level)` of `fetch_and_parse_sitemap`:
skip if already visited; otherwise add the URL to the visited set, then fetch
it; on fetch failure return with no contribution; if the document is an
index, recurse into each child in order; if it is a regular sitemap, append
its entries to `all_urls`. -/
def process_sitemap (world : List (String × FetchResult)) :
    Nat → String → WalkState → WalkState
  | 0, _, s => { s with ok := false }
  | fuel + 1, url, s =>
    if url ∈ s.visited then s
    else
      let s1 : WalkState :=
        { s with visited := s.visited ++ [url], fetched := s.fetched ++ [url] }
      match fetchW world url with
      | FetchResult.failure => s1
      | FetchResult.indexDoc children => process_children world fuel children s1
      | FetchResult.leafDoc entries => { s1 with all_urls := s1.all_urls ++ entries }
termination_by fuel _ _ => (fuel, 0)

/-- The `for child_url in child_sitemaps` loop inside `process_sitemap`. -/
def process_children (world : List (String × FetchResult)) :
    Nat → List String → WalkState → WalkState
  | _, [], s => s
  | fuel, c :: cs, s => process_children world fuel cs (process_sitemap world fuel c s)
termination_by fuel cs _ => (fuel, cs.length + 1)

end

/-- Initial walk state: empty `processed_sitemaps` and `all_urls`. -/
def initWalkState : WalkState := ⟨[], [], [], true⟩

/-- Model of `fetch_and_parse_sitemap`: run the walk from the root sitemap URL and
return the accumulated entries together with the processed-sitemap set. -/
def fetch_and_parse_sitemap (world : List (String × FetchResult)) (fuel : Nat)
    (sitemap_url : String) : List SitemapEntry × List String :=
  let s := process_sitemap world fuel sitemap_url initWalkState
  (s.all_urls, s.visited)

/-- The distinct sitemap URLs the modelled network can serve. -/
def dedupKeys (world : List (String × FetchResult)) : List String :=
  (world.map Prod.fst).dedup

/-- Fuel that always suffices: one more than the number of distinct URLs. -/
def walkFuel (world : List (String × FetchResult)) : Nat :=
  (dedupKeys world).length + 1

/-- Number of distinct servable URLs not yet visited. -/
def unvisitedCount (world : List (String × FetchResult))
    (visited : List String) : Nat :=
  ((dedupKeys world).filter fun k => !(decide (k ∈ visited))).length

/-- The entries a URL contributes when processed as a leaf: the parsed
entries if the fetch yields a regular sitemap, nothing otherwise. -/
def leafEntriesOf (world : List (String × FetchResult)) (u : String) :
    List SitemapEntry :=
  match fetchW world u with
  | FetchResult.leafDoc es => es
  | _ => []

/-- Concatenated leaf contributions of a list of URLs, in order. -/
def leafContrib (world : List (String × FetchResult)) (t : List String) :
    List SitemapEntry :=
  (t.map (leafEntriesOf world)).flatten

/-- How one walk step extends the state: the visited list and the fetch log
grow by the same block `t` of previously unvisited, pairwise distinct URLs,
and `all_urls` grows by exactly the leaf contributions of `t`. -/
def StepExtends (world : List (String × FetchResult)) (s s' : WalkState) : Prop :=
  ∃ t, s'.visited = s.visited ++ t ∧ s'.fetched = s.fetched ++ t ∧
    s'.all_urls = s.all_urls ++ leafContrib world t ∧
    t.Nodup ∧ ∀ u ∈ t, u ∉ s.visited

/-! ## HTTP retry (`make_request`, http.py lines 69-162)

`make_request` performs one `requests.request` call and then
`response.raise_for_status()`.  `raise_for_status` raises `HTTPError` — a
subclass of `RequestException` — for every status code of 400 and above, so
both 4xx and 5xx responses surface as a `RequestException`, as do connection
errors and timeouts.  The tenacity decorator
`retry(stop=stop_after_attempt(3), wait=wait_exponential(multiplier=1, min=2,
max=10), retry=retry_if_exception_type((RequestException, ConnectionError,
TimeoutError)))` therefore retries every one of these failures, sleeping
`clamp(2, 2^attempt_number, 10)` seconds after the n-th failed attempt, and
gives up (raising a terminal retry error) once 3 attempts have been made. -/

/-- What the network does on one attempt: a raised connection error, a raised
timeout, or an HTTP response with a status code. -/
inductive AttemptOutcome where
  | connError : AttemptOutcome
  | timeoutError : AttemptOutcome
  | status : Nat → AttemptOutcome
deriving DecidableEq, Repr

/-- An attempt succeeds iff a response arrives and `raise_for_status` does
not raise, i.e. the status code is below 400. -/
def attempt_succeeds : AttemptOutcome → Bool
  | AttemptOutcome.status c => decide (c < 400)
  | _ => false

/-- tenacity `wait_exponential(multiplier=1, min=2, max=10)`: the sleep after
the n-th failed attempt is `1 * 2^n` clamped into `[2, 10]`. -/
def wait_exponential (attempt_number : Nat) : Nat :=
  max 2 (min (2 ^ attempt_number) 10)

/-- Observable trace of one `make_request` call: the returned status code
(`none` when the attempt ceiling was exhausted and a terminal retry error was
raised), the number of attempts actually made, and the backoff sleeps
performed between attempts. -/
structure RetryTrace where
  result : Option Nat
  attempts_made : Nat
  waits : List Nat
deriving DecidableEq, Repr

/-- The tenacity retry loop: attempt number `attempt_number`, `remaining`
attempts allowed (including this one).  A successful attempt returns its
status code; a failed attempt either exhausts the ceiling or sleeps
`wait_exponential attempt_number` and retries. -/
def retry_go (env : Nat → AttemptOutcome) (attempt_number : Nat) :
    Nat → RetryTrace
  | 0 => ⟨none, attempt_number - 1, []⟩
  | remaining + 1 =>
    if attempt_succeeds (env attempt_number) then
      match env attempt_number with
      | AttemptOutcome.status c => ⟨some c, attempt_number, []⟩
      | _ => ⟨none, attempt_number, []⟩
    else if remaining = 0 then ⟨none, attempt_number, []⟩
    else
      let t := retry_go env (attempt_number + 1) remaining
      ⟨t.result, t.attempts_made, wait_exponential attempt_number :: t.waits⟩

/-- Model of `make_request` under `@retry(stop=stop_after_attempt(3), ...)`: up to 3
attempts, starting with attempt number 1. -/
def make_request (env : Nat → AttemptOutcome) : RetryTrace :=
  retry_go env 1 3

/-! ## Gzip handling in `fetch_sitemap` (parser.py lines 42-81)

`fetch_sitemap` calls `make_request`; on any exception it returns `None`.
Otherwise, if the response's `Content-Type` header equals
`application/x-gzip` or the URL ends in `.gz`, it runs `gzip.decompress`
on the body and returns `None` when decompression raises; otherwise it
returns the (possibly decompressed) body.  In the recursive walk a `None`
fetch result makes the node contribute nothing (`FetchResult.failure`). -/

/-- A response body: a plain document, a well-formed gzip stream wrapping a
document, or bytes on which `gzip.decompress` raises. -/
inductive Payload where
  | plain : String → Payload
  | gzipped : String → Payload
  | corrupt : Payload
deriving DecidableEq, Repr

/-- Model of `gzip.decompress`: succeeds exactly on a well-formed gzip stream. -/
def gzip_decompress : Payload → Option Payload
  | Payload.gzipped d => some (Payload.plain d)
  | _ => none

/-- The relevant parts of a `requests` response. -/
structure HttpResponse where
  content_type : Option String
  content : Payload
deriving DecidableEq, Repr

/-- Python's `str.endswith`, computed on the character lists. -/
def str_ends_with (s suffix : String) : Bool :=
  suffix.data.isSuffixOf s.data

/-- Model of `SitemapParser.fetch_sitemap`: `resp = none` models `make_request`
raising (the surrounding `except` returns `None`); otherwise the gzip branch
runs when the content type is `application/x-gzip` or the URL ends in
`.gz`. -/
def fetch_sitemap (sitemap_url : String) (resp : Option HttpResponse) :
    Option Payload :=
  match resp with
  | none => none
  | some r =>
    if r.content_type == some "application/x-gzip" || str_ends_with sitemap_url ".gz" then
      match gzip_decompress r.content with
      | some c => some c
      | none => none
    else some r.content

/-! ## Commit sequence of `process_site` (crawler.py lines 298-319) and its
error branch (lines 331-354)

After the diff loop, `process_site` issues `context_session.commit()` once
(persisting the new rows and the last-seen refreshes together), then calls
`update_site_last_crawled` — which sets `site.last_crawled_at = utc_now()`
and issues a second `session.commit()` — and then `create_crawl_log`, which
issues a third `session.commit()`.  Commits are modelled by an oracle
`w : Nat → Bool` telling whether the k-th `commit()` call of this phase
succeeds; a failed commit applies nothing and raises, sending control to the
`except` branch. -/

/-- A `CrawlLog` row (models/site.py): the fields the orchestrator sets. -/
structure CrawlLogRec where
  status : String
  pages_found_count : Nat
  message : String
deriving DecidableEq, Repr

/-- The site-scoped database state the commit phase can change. -/
structure Db where
  pages : List PageRec
  site_last_crawled_at : Option Nat
  crawl_logs : List CrawlLogRec
deriving DecidableEq, Repr

/-- The three commits of the success path of `process_site`, in source
order: pages (new rows + refreshes) as one unit, then the site's
last-crawled timestamp, then the crawl log.  Returns the database state
together with `true` iff no commit raised. -/
def commit_phase (w : Nat → Bool) (pending_pages : List PageRec)
    (t_crawled : Nat) (log : CrawlLogRec) (db : Db) : Db × Bool :=
  if w 0 then
    let db1 : Db := { db with pages := pending_pages }
    if w 1 then
      let db2 : Db := { db1 with site_last_crawled_at := some t_crawled }
      if w 2 then ({ db2 with crawl_logs := db2.crawl_logs ++ [log] }, true)
      else (db2, false)
    else (db1, false)
  else (db, false)

/-! ## The `except` branch of `process_site` (crawler.py lines 331-354)

On any exception after the site is identified, the branch opens a fresh
session and calls `create_crawl_log(status="failed",
message="处理失败: " + error)`, which issues a `session.commit()`; if the
site has notifications enabled it then calls
`notifier.send_error_notification`, whose delivery failures are caught
inside `FeishuNotifier.send_message` and surface only as a `False` return
value, which `process_site` ignores; finally it returns
`(False, message, 0)`.  There is no inner `try` around the crawl-log write:
if that commit raises, the exception propagates out of `process_site`. -/

/-- Environment of the error branch: whether the site has notifications
enabled, whether the crawl-log commit succeeds, and whether the notification
delivery succeeds. -/
structure ErrorCtx where
  notification_enabled : Bool
  log_commit_ok : Bool
  notify_delivery_ok : Bool
deriving DecidableEq, Repr

/-- Observable outcome of the error branch: either a secondary exception
propagated out of `process_site`, or the branch returned the failure tuple,
having written the given log and attempted (or not) a notification. -/
inductive ErrOutcome where
  | raised : ErrOutcome
  | returned : Bool → Nat → CrawlLogRec → Bool → ErrOutcome
deriving DecidableEq, Repr

/-- The `except` branch of `process_site`. -/
def handle_process_site_error (c : ErrorCtx) (err : String) : ErrOutcome :=
  if c.log_commit_ok then
    ErrOutcome.returned false 0 ⟨"failed", 0, "处理失败: " ++ err⟩
      c.notification_enabled
  else ErrOutcome.raised

lemma update_last_seen_map_url (u : String) (t : Nat) (l : List PageRec) :
    (update_last_seen u t l).map PageRec.url = l.map PageRec.url := by
  induction l with
  | nil => rfl
  | cons p ps ih =>
    by_cases h : p.url = u <;> simp [update_last_seen, h, ih]

/-- Characterization of the diff loop: provided every existing key has a row
in the session (true initially because the key set is derived from the rows,
and preserved by the loop), the final row URLs, the `new_pages` URLs and the
refreshed list are the initial ones extended by, respectively, the URLs of
entries outside the key set (twice) and the URLs of entries inside it. -/
lemma diff_loop_characterization (clock : Nat → Nat) (keys : List String) :
    ∀ (E : List SitemapEntry) (st : CycleState),
      (∀ k ∈ keys, k ∈ st.pages.map PageRec.url) →
      ((diff_loop clock keys E st).pages.map PageRec.url
          = st.pages.map PageRec.url
            ++ (E.filter fun e => !(decide (e.url ∈ keys))).map SitemapEntry.url)
      ∧ ((diff_loop clock keys E st).new_pages.map PageRec.url
          = st.new_pages.map PageRec.url
            ++ (E.filter fun e => !(decide (e.url ∈ keys))).map SitemapEntry.url)
      ∧ ((diff_loop clock keys E st).refreshed
          = st.refreshed
            ++ (E.filter fun e => decide (e.url ∈ keys)).map SitemapEntry.url) := by
  intro E
  induction E with
  | nil => intro st _; simp [diff_loop]
  | cons e es ih =>
    intro st hkeys
    by_cases hmem : e.url ∈ keys
    · have hrow : e.url ∈ st.pages.map PageRec.url := hkeys e.url hmem
      have hstep : process_entry clock keys e st
          = { st with
                pages := update_last_seen e.url (clock st.idx) st.pages,
                refreshed := st.refreshed ++ [e.url],
                idx := st.idx + 1 } := by
        simp [process_entry, hmem, hrow]
      have hkeys' : ∀ k ∈ keys, k ∈ (process_entry clock keys e st).pages.map PageRec.url := by
        intro k hk
        rw [hstep]
        simpa [update_last_seen_map_url] using hkeys k hk
      have ihs := ih (process_entry clock keys e st) hkeys'
      refine ⟨?_, ?_, ?_⟩
      · rw [diff_loop, ihs.1, hstep]
        simp [update_last_seen_map_url, hmem]
      · rw [diff_loop, ihs.2.1, hstep]
        simp [hmem]
      · rw [diff_loop, ihs.2.2, hstep]
        simp [hmem]
    · have hstep : process_entry clock keys e st
          = { st with
                pages := st.pages ++ [⟨e.url, none, clock st.idx, clock (st.idx + 1), false⟩],
                new_pages := st.new_pages ++ [⟨e.url, none, clock st.idx, clock (st.idx + 1), false⟩],
                idx := st.idx + 2 } := by
        simp [process_entry, hmem]
      have hkeys' : ∀ k ∈ keys, k ∈ (process_entry clock keys e st).pages.map PageRec.url := by
        intro k hk
        rw [hstep]
        simp only [List.map_append, List.mem_append]
        exact Or.inl (hkeys k hk)
      have ihs := ih (process_entry clock keys e st) hkeys'
      refine ⟨?_, ?_, ?_⟩
      · rw [diff_loop, ihs.1, hstep]
        simp [hmem]
      · rw [diff_loop, ihs.2.1, hstep]
        simp [hmem]
      · rw [diff_loop, ihs.2.2, hstep]
        simp [hmem]

/-- Every page ever added to `new_pages` by the loop was built in the new-URL
branch: unset title, cleared processed flag, and timestamps taken from two
consecutive `utc_now()` calls (first `first_discovered_at`, then
`last_seen_at`). -/
lemma diff_loop_new_pages_shape (clock : Nat → Nat) (keys : List String) :
    ∀ (E : List SitemapEntry) (st : CycleState) (p : PageRec),
      p ∈ (diff_loop clock keys E st).new_pages →
      p ∈ st.new_pages ∨
        (p.page_title = none ∧ p.is_processed = false ∧
          ∃ j, p.first_discovered_at = clock j ∧ p.last_seen_at = clock (j + 1)) := by
  intro E
  induction E with
  | nil => intro st p hp; exact Or.inl hp
  | cons e es ih =>
    intro st p hp
    rw [diff_loop] at hp
    rcases ih (process_entry clock keys e st) p hp with h | h
    · by_cases hmem : e.url ∈ keys
      · by_cases hrow : e.url ∈ st.pages.map PageRec.url
        · simp [process_entry, hmem, hrow] at h
          exact Or.inl h
        · simp [process_entry, hmem, hrow] at h
          exact Or.inl h
      · simp [process_entry, hmem] at h
        rcases h with h | h
        · exact Or.inl h
        · exact Or.inr ⟨by simp [h], by simp [h], st.idx, by simp [h], by simp [h]⟩
    · exact Or.inr h

/-- Claim C1: for every entry list `E` and existing URL map key set `S`
(derived from the site's current rows), the diff loop of `process_site`
treats as new exactly the entries whose URL is not a key of `S`, refreshes
(`reseen`) exactly the entries whose URL is a key of `S`, the two classes are
disjoint, and together they cover all of `E` — membership decided by exact
URL string equality. -/
theorem diff_partition_law (clock : Nat → Nat) (pages0 : List PageRec)
    (E : List SitemapEntry) :
    ((run_diff clock pages0 E).new_pages.map PageRec.url
        = (E.filter fun e => !(decide (e.url ∈ pages0.map PageRec.url))).map SitemapEntry.url)
  ∧ ((run_diff clock pages0 E).refreshed
        = (E.filter fun e => decide (e.url ∈ pages0.map PageRec.url)).map SitemapEntry.url)
  ∧ (∀ e : SitemapEntry,
      ¬(e ∈ (E.filter fun e => !(decide (e.url ∈ pages0.map PageRec.url)))
        ∧ e ∈ (E.filter fun e => decide (e.url ∈ pages0.map PageRec.url))))
  ∧ ((E.filter fun e => !(decide (e.url ∈ pages0.map PageRec.url)))
        ++ (E.filter fun e => decide (e.url ∈ pages0.map PageRec.url))).Perm E := by
  have hchar := diff_loop_characterization clock (pages0.map PageRec.url) E
      ⟨pages0, [], [], 1⟩ (fun k hk => hk)
  refine ⟨?_, ?_, ?_, ?_⟩
  · simpa [run_diff] using hchar.2.1
  · simpa [run_diff] using hchar.2.2
  · intro e ⟨h1, h2⟩
    rw [List.mem_filter] at h1 h2
    rw [h2.2] at h1
    exact absurd h1.2 (by simp)
  · exact (List.perm_append_comm).trans
      (List.filter_append_perm (fun e => decide (e.url ∈ pages0.map PageRec.url)) E)

/-- Witness for C1 at a concrete input: one previously recorded URL, a
sitemap with that URL and one fresh URL. -/
theorem diff_partition_law_witness :
    ((run_diff (fun i => i) [⟨"https://s.example/a", none, 0, 0, false⟩]
        [⟨"https://s.example/a", none⟩, ⟨"https://s.example/b", none⟩]).new_pages.map PageRec.url
        = ([⟨"https://s.example/a", none⟩, ⟨"https://s.example/b", none⟩].filter
            fun e : SitemapEntry =>
              !(decide (e.url ∈ ([⟨"https://s.example/a", none, 0, 0, false⟩] : List PageRec).map PageRec.url))).map SitemapEntry.url)
  ∧ ((run_diff (fun i => i) [⟨"https://s.example/a", none, 0, 0, false⟩]
        [⟨"https://s.example/a", none⟩, ⟨"https://s.example/b", none⟩]).refreshed
        = ([⟨"https://s.example/a", none⟩, ⟨"https://s.example/b", none⟩].filter
            fun e : SitemapEntry =>
              decide (e.url ∈ ([⟨"https://s.example/a", none, 0, 0, false⟩] : List PageRec).map PageRec.url)).map SitemapEntry.url)
  ∧ (¬((⟨"https://s.example/a", none⟩ : SitemapEntry)
          ∈ ([⟨"https://s.example/a", none⟩, ⟨"https://s.example/b", none⟩].filter
            fun e : SitemapEntry =>
              !(decide (e.url ∈ ([⟨"https://s.example/a", none, 0, 0, false⟩] : List PageRec).map PageRec.url)))
        ∧ (⟨"https://s.example/a", none⟩ : SitemapEntry)
          ∈ ([⟨"https://s.example/a", none⟩, ⟨"https://s.example/b", none⟩].filter
            fun e : SitemapEntry =>
              decide (e.url ∈ ([⟨"https://s.example/a", none, 0, 0, false⟩] : List PageRec).map PageRec.url))))
  ∧ (([⟨"https://s.example/a", none⟩, ⟨"https://s.example/b", none⟩].filter
        fun e : SitemapEntry =>
          !(decide (e.url ∈ ([⟨"https://s.example/a", none, 0, 0, false⟩] : List PageRec).map PageRec.url)))
      ++ ([⟨"https://s.example/a", none⟩, ⟨"https://s.example/b", none⟩].filter
        fun e : SitemapEntry =>
          decide (e.url ∈ ([⟨"https://s.example/a", none, 0, 0, false⟩] : List PageRec).map PageRec.url))).Perm
      [⟨"https://s.example/a", none⟩, ⟨"https://s.example/b", none⟩] :=
  ⟨(diff_partition_law (fun i => i) [⟨"https://s.example/a", none, 0, 0, false⟩]
      [⟨"https://s.example/a", none⟩, ⟨"https://s.example/b", none⟩]).1,
   (diff_partition_law (fun i => i) [⟨"https://s.example/a", none, 0, 0, false⟩]
      [⟨"https://s.example/a", none⟩, ⟨"https://s.example/b", none⟩]).2.1,
   (diff_partition_law (fun i => i) [⟨"https://s.example/a", none, 0, 0, false⟩]
      [⟨"https://s.example/a", none⟩, ⟨"https://s.example/b", none⟩]).2.2.1
     ⟨"https://s.example/a", none⟩,
   (diff_partition_law (fun i => i) [⟨"https://s.example/a", none, 0, 0, false⟩]
      [⟨"https://s.example/a", none⟩, ⟨"https://s.example/b", none⟩]).2.2.2⟩

/-- Counterexample to claim C7 as stated: with the strictly increasing clock
`fun i => i`, the single new page gets `first_discovered_at = 1` and
`last_seen_at = 2` from the two `utc_now()` calls at insertion, while the
cycle start time (the `utc_now()` at the top of `process_site`) is `0`; the
inserted timestamps do not equal the cycle start time. -/
theorem new_page_timestamps_counterexample :
    ¬ ∀ p ∈ (run_diff (fun i => i) [] [⟨"https://s.example/a", none⟩]).new_pages,
        p.first_discovered_at = cycle_start_time (fun i => i)
        ∧ p.last_seen_at = cycle_start_time (fun i => i) := by
  decide

/-- Claim C7 (amended): for every entry whose URL is not in the existing URL
map, the cycle inserts a `DiscoveredPage` whose title is unset and whose
processed flag is cleared, and whose first-discovered and last-seen times are
the `utc_now()` readings at insertion time — two consecutive clock reads, so
(for a monotone clock) cycle start ≤ first-discovered ≤ last-seen; they are
not in general equal to the cycle start time. -/
theorem new_page_fields (clock : Nat → Nat) (hm : Monotone clock)
    (pages0 : List PageRec) (E : List SitemapEntry) :
    ∀ p ∈ (run_diff clock pages0 E).new_pages,
      p.page_title = none ∧ p.is_processed = false ∧
      cycle_start_time clock ≤ p.first_discovered_at ∧
      p.first_discovered_at ≤ p.last_seen_at := by
  intro p hp
  rcases diff_loop_new_pages_shape clock (pages0.map PageRec.url) E
      ⟨pages0, [], [], 1⟩ p hp with h | ⟨ht, hproc, j, h1, h2⟩
  · simp at h
  · refine ⟨ht, hproc, ?_, ?_⟩
    · rw [h1]; exact hm (Nat.zero_le j)
    · rw [h1, h2]; exact hm (Nat.le_succ j)

/-- Witness for C7 (amended) at a concrete input: the identity clock and a
single fresh URL. -/
theorem new_page_fields_witness :
    (⟨"https://s.example/a", none, 1, 2, false⟩ : PageRec).page_title = none
  ∧ (⟨"https://s.example/a", none, 1, 2, false⟩ : PageRec).is_processed = false
  ∧ cycle_start_time (fun i => i)
      ≤ (⟨"https://s.example/a", none, 1, 2, false⟩ : PageRec).first_discovered_at
  ∧ (⟨"https://s.example/a", none, 1, 2, false⟩ : PageRec).first_discovered_at
      ≤ (⟨"https://s.example/a", none, 1, 2, false⟩ : PageRec).last_seen_at :=
  new_page_fields (fun i => i) (fun _ _ h => h) [] [⟨"https://s.example/a", none⟩]
    ⟨"https://s.example/a", none, 1, 2, false⟩ (by decide)

/-- Claim C8: running the diff a second time against the state produced by
the first run, with the same sitemap entries, classifies every entry as
reseen — zero new pages, and every previously seen URL has its last-seen
timestamp refreshed (its URL is in the refreshed list of the second run). -/
theorem diff_idempotent (clock clock' : Nat → Nat) (pages0 : List PageRec)
    (E : List SitemapEntry) :
    (run_diff clock' (run_diff clock pages0 E).pages E).new_pages = []
  ∧ ∀ e ∈ E, e.url ∈ (run_diff clock' (run_diff clock pages0 E).pages E).refreshed := by
  have hchar1 := diff_loop_characterization clock (pages0.map PageRec.url) E
      ⟨pages0, [], [], 1⟩ (fun k hk => hk)
  have hkeys2 : ∀ e ∈ E, e.url ∈ (run_diff clock pages0 E).pages.map PageRec.url := by
    intro e he
    have hpages : (run_diff clock pages0 E).pages.map PageRec.url
        = pages0.map PageRec.url
          ++ (E.filter fun e => !(decide (e.url ∈ pages0.map PageRec.url))).map SitemapEntry.url := by
      simpa [run_diff] using hchar1.1
    rw [hpages, List.mem_append]
    by_cases hmem : e.url ∈ pages0.map PageRec.url
    · exact Or.inl hmem
    · exact Or.inr (List.mem_map.mpr ⟨e, List.mem_filter.mpr ⟨he, by simp [hmem]⟩, rfl⟩)
  have hchar2 := diff_loop_characterization clock'
      ((run_diff clock pages0 E).pages.map PageRec.url) E
      ⟨(run_diff clock pages0 E).pages, [], [], 1⟩ (fun k hk => hk)
  have hun : run_diff clock' (run_diff clock pages0 E).pages E
      = diff_loop clock' ((run_diff clock pages0 E).pages.map PageRec.url) E
          ⟨(run_diff clock pages0 E).pages, [], [], 1⟩ := rfl
  constructor
  · have hfilter : (E.filter fun e =>
        !(decide (e.url ∈ (run_diff clock pages0 E).pages.map PageRec.url))) = [] := by
      rw [List.filter_eq_nil_iff]
      intro e he
      simp [hkeys2 e he]
    have hmap : (run_diff clock' (run_diff clock pages0 E).pages E).new_pages.map PageRec.url = [] := by
      rw [hun, hchar2.2.1, hfilter]
      simp
    exact List.map_eq_nil_iff.mp hmap
  · intro e he
    have hrefreshed : (run_diff clock' (run_diff clock pages0 E).pages E).refreshed
        = (E.filter fun e =>
            decide (e.url ∈ (run_diff clock pages0 E).pages.map PageRec.url)).map SitemapEntry.url := by
      rw [hun, hchar2.2.2]
      simp
    rw [hrefreshed]
    exact List.mem_map.mpr ⟨e, List.mem_filter.mpr ⟨he, by simp [hkeys2 e he]⟩, rfl⟩

/-- Witness for C8 at a concrete input: two entries, an empty prior state. -/
theorem diff_idempotent_witness :
    (run_diff (fun i => i)
        (run_diff (fun i => i) []
          [⟨"https://s.example/a", none⟩, ⟨"https://s.example/b", none⟩]).pages
        [⟨"https://s.example/a", none⟩, ⟨"https://s.example/b", none⟩]).new_pages = []
  ∧ (⟨"https://s.example/a", none⟩ : SitemapEntry).url
      ∈ (run_diff (fun i => i)
        (run_diff (fun i => i) []
          [⟨"https://s.example/a", none⟩, ⟨"https://s.example/b", none⟩]).pages
        [⟨"https://s.example/a", none⟩, ⟨"https://s.example/b", none⟩]).refreshed :=
  ⟨(diff_idempotent (fun i => i) (fun i => i) []
      [⟨"https://s.example/a", none⟩, ⟨"https://s.example/b", none⟩]).1,
   (diff_idempotent (fun i => i) (fun i => i) []
      [⟨"https://s.example/a", none⟩, ⟨"https://s.example/b", none⟩]).2
     ⟨"https://s.example/a", none⟩ (by decide)⟩

lemma stepExtends_rfl (world : List (String × FetchResult)) (s : WalkState) :
    StepExtends world s s :=
  ⟨[], by simp, by simp, by simp [leafContrib], by simp, by simp⟩

lemma stepExtends_trans {world : List (String × FetchResult)}
    {s1 s2 s3 : WalkState} (h12 : StepExtends world s1 s2)
    (h23 : StepExtends world s2 s3) : StepExtends world s1 s3 := by
  obtain ⟨t1, hv1, hf1, ha1, hn1, hm1⟩ := h12
  obtain ⟨t2, hv2, hf2, ha2, hn2, hm2⟩ := h23
  refine ⟨t1 ++ t2, ?_, ?_, ?_, ?_, ?_⟩
  · rw [hv2, hv1, List.append_assoc]
  · rw [hf2, hf1, List.append_assoc]
  · rw [ha2, ha1, List.append_assoc]
    congr 1
    simp [leafContrib]
  · refine List.Nodup.append hn1 hn2 ?_
    intro u hu1 hu2
    exact hm2 u hu2 (by rw [hv1]; exact List.mem_append.mpr (Or.inr hu1))
  · intro u hu
    rcases List.mem_append.mp hu with h | h
    · exact hm1 u h
    · intro hvis
      exact hm2 u h (by rw [hv1]; exact List.mem_append.mpr (Or.inl hvis))

lemma mem_map_fst_of_lookup {world : List (String × FetchResult)} {u : String}
    {r : FetchResult} (h : world.lookup u = some r) : u ∈ world.map Prod.fst := by
  induction world with
  | nil => simp [List.lookup] at h
  | cons kv tl ih =>
    obtain ⟨k, v⟩ := kv
    cases hbe : u == k with
    | true =>
      have : u = k := eq_of_beq hbe
      simp [this]
    | false =>
      simp only [List.lookup, hbe] at h
      exact List.mem_cons_of_mem _ (ih h)

lemma mem_dedupKeys_of_indexDoc {world : List (String × FetchResult)}
    {u : String} {ch : List String}
    (h : fetchW world u = FetchResult.indexDoc ch) : u ∈ dedupKeys world := by
  rw [dedupKeys, List.mem_dedup]
  unfold fetchW at h
  cases hl : world.lookup u with
  | none => rw [hl] at h; exact absurd h (by simp)
  | some r => exact mem_map_fst_of_lookup hl

lemma length_filter_mono {α : Type} (l : List α) (p q : α → Bool)
    (h : ∀ x ∈ l, p x = true → q x = true) :
    (l.filter p).length ≤ (l.filter q).length := by
  induction l with
  | nil => simp
  | cons a tl ih =>
    have ih' := ih fun x hx hpx => h x (List.mem_cons_of_mem a hx) hpx
    cases hp : p a with
    | true =>
      have hq := h a (List.mem_cons_self a tl) hp
      simp only [List.filter_cons, hp, hq, if_true, List.length_cons]
      exact Nat.succ_le_succ ih'
    | false =>
      cases hq : q a with
      | true =>
        simp only [List.filter_cons, hp, hq, if_true, if_false, List.length_cons]
        exact Nat.le_succ_of_le ih'
      | false =>
        simp only [List.filter_cons, hp, hq, if_false]
        exact ih'

lemma unvisitedCount_append_le (world : List (String × FetchResult))
    (v t : List String) :
    unvisitedCount world (v ++ t) ≤ unvisitedCount world v := by
  apply length_filter_mono
  intro x _ hx
  simp only [Bool.not_eq_true', decide_eq_false_iff_not, List.mem_append] at hx
  simp only [Bool.not_eq_true', decide_eq_false_iff_not]
  exact fun hxv => hx (Or.inl hxv)

lemma length_filter_append_singleton_lt (l v : List String) (u : String)
    (hu : u ∈ l) (hnv : u ∉ v) :
    (l.filter fun k => !(decide (k ∈ v ++ [u]))).length
      < (l.filter fun k => !(decide (k ∈ v))).length := by
  induction l with
  | nil => simp at hu
  | cons a tl ih =>
    by_cases hau : a = u
    · subst hau
      have h1 : (!(decide (a ∈ v ++ [a]))) = false := by simp
      have h2 : (!(decide (a ∈ v))) = true := by simp [hnv]
      rw [List.filter_cons, List.filter_cons, h1, h2]
      simp only [if_false, if_true, List.length_cons]
      have hle : (tl.filter fun k => !(decide (k ∈ v ++ [a]))).length
          ≤ (tl.filter fun k => !(decide (k ∈ v))).length := by
        apply length_filter_mono
        intro x _ hx
        simp only [Bool.not_eq_true', decide_eq_false_iff_not, List.mem_append] at hx
        simp only [Bool.not_eq_true', decide_eq_false_iff_not]
        exact fun hxv => hx (Or.inl hxv)
      exact Nat.lt_succ_of_le hle
    · have hu' : u ∈ tl := by
        rcases List.mem_cons.mp hu with h | h
        · exact absurd h.symm hau
        · exact h
      have hpred : (!(decide (a ∈ v ++ [u]))) = (!(decide (a ∈ v))) := by
        simp [List.mem_append, hau]
      rw [List.filter_cons, List.filter_cons, hpred]
      by_cases h : (!(decide (a ∈ v))) = true
      · rw [if_pos h, if_pos h]
        simp only [List.length_cons]
        exact Nat.succ_lt_succ (ih hu')
      · rw [if_neg h, if_neg h]
        exact ih hu'

lemma unvisitedCount_append_singleton_lt (world : List (String × FetchResult))
    (v : List String) (u : String) (hu : u ∈ dedupKeys world) (hnv : u ∉ v) :
    unvisitedCount world (v ++ [u]) < unvisitedCount world v :=
  length_filter_append_singleton_lt (dedupKeys world) v u hu hnv

lemma process_children_extends_of (world : List (String × FetchResult)) (fuel : Nat)
    (ih : ∀ url s, StepExtends world s (process_sitemap world fuel url s)) :
    ∀ cs s, StepExtends world s (process_children world fuel cs s) := by
  intro cs
  induction cs with
  | nil =>
    intro s
    simp only [process_children]
    exact stepExtends_rfl world s
  | cons c cs ihc =>
    intro s
    simp only [process_children]
    exact stepExtends_trans (ih c s) (ihc (process_sitemap world fuel c s))

lemma process_sitemap_extends (world : List (String × FetchResult)) :
    ∀ fuel url s, StepExtends world s (process_sitemap world fuel url s) := by
  intro fuel
  induction fuel with
  | zero =>
    intro url s
    simp only [process_sitemap]
    exact ⟨[], by simp, by simp, by simp [leafContrib], by simp, by simp⟩
  | succ fuel ih =>
    intro url s
    by_cases hv : url ∈ s.visited
    · simp only [process_sitemap, if_pos hv]
      exact stepExtends_rfl world s
    · cases hf : fetchW world url with
      | failure =>
        simp only [process_sitemap, if_neg hv, hf]
        exact ⟨[url], by simp, by simp,
          by simp [leafContrib, leafEntriesOf, hf], by simp, by simp [hv]⟩
      | leafDoc entries =>
        simp only [process_sitemap, if_neg hv, hf]
        exact ⟨[url], by simp, by simp,
          by simp [leafContrib, leafEntriesOf, hf], by simp, by simp [hv]⟩
      | indexDoc children =>
        simp only [process_sitemap, if_neg hv, hf]
        have h1 : StepExtends world s
            { s with visited := s.visited ++ [url], fetched := s.fetched ++ [url] } :=
          ⟨[url], by simp, by simp,
            by simp [leafContrib, leafEntriesOf, hf], by simp, by simp [hv]⟩
        exact stepExtends_trans h1
          (process_children_extends_of world fuel ih children _)

lemma process_children_ok_of (world : List (String × FetchResult)) (fuel : Nat)
    (ih : ∀ url s, unvisitedCount world s.visited < fuel →
        (process_sitemap world fuel url s).ok = s.ok) :
    ∀ cs s, unvisitedCount world s.visited < fuel →
      (process_children world fuel cs s).ok = s.ok := by
  intro cs
  induction cs with
  | nil =>
    intro s _
    simp only [process_children]
  | cons c cs ihc =>
    intro s h
    simp only [process_children]
    obtain ⟨t, hvis, _, _, _, _⟩ := process_sitemap_extends world fuel c s
    have h2 : unvisitedCount world (process_sitemap world fuel c s).visited < fuel := by
      rw [hvis]
      exact lt_of_le_of_lt (unvisitedCount_append_le world s.visited t) h
    rw [ihc (process_sitemap world fuel c s) h2, ih c s h]

lemma process_sitemap_ok (world : List (String × FetchResult)) :
    ∀ fuel url s, unvisitedCount world s.visited < fuel →
      (process_sitemap world fuel url s).ok = s.ok := by
  intro fuel
  induction fuel with
  | zero => intro url s h; exact absurd h (Nat.not_lt_zero _)
  | succ fuel ih =>
    intro url s h
    by_cases hv : url ∈ s.visited
    · simp [process_sitemap, hv]
    · cases hf : fetchW world url with
      | failure => simp [process_sitemap, hv, hf]
      | leafDoc entries => simp [process_sitemap, hv, hf]
      | indexDoc children =>
        simp only [process_sitemap, if_neg hv, hf]
        have hu : url ∈ dedupKeys world := mem_dedupKeys_of_indexDoc hf
        have hcount : unvisitedCount world (s.visited ++ [url]) < fuel := by
          have hlt := unvisitedCount_append_singleton_lt world s.visited url hu hv
          omega
        exact process_children_ok_of world fuel ih children
          { s with visited := s.visited ++ [url], fetched := s.fetched ++ [url] } hcount

lemma process_children_ok_false_of (world : List (String × FetchResult)) (fuel : Nat)
    (ih : ∀ url s, s.ok = false → (process_sitemap world fuel url s).ok = false) :
    ∀ cs s, s.ok = false → (process_children world fuel cs s).ok = false := by
  intro cs
  induction cs with
  | nil => intro s h; simpa only [process_children] using h
  | cons c cs ihc =>
    intro s h
    simp only [process_children]
    exact ihc (process_sitemap world fuel c s) (ih c s h)

lemma process_sitemap_ok_false (world : List (String × FetchResult)) :
    ∀ fuel url s, s.ok = false → (process_sitemap world fuel url s).ok = false := by
  intro fuel
  induction fuel with
  | zero => intro url s _; simp [process_sitemap]
  | succ fuel ih =>
    intro url s h
    by_cases hv : url ∈ s.visited
    · simpa [process_sitemap, hv] using h
    · cases hf : fetchW world url with
      | failure => simpa [process_sitemap, hv, hf] using h
      | leafDoc entries => simpa [process_sitemap, hv, hf] using h
      | indexDoc children =>
        simp only [process_sitemap, if_neg hv, hf]
        exact process_children_ok_false_of world fuel ih children
          { s with visited := s.visited ++ [url], fetched := s.fetched ++ [url] } h

lemma process_children_ok_true (world : List (String × FetchResult)) (fuel : Nat)
    (cs : List String) (s : WalkState)
    (h : (process_children world fuel cs s).ok = true) : s.ok = true := by
  by_contra hfalse
  have hsf : s.ok = false := by
    cases hok : s.ok
    · rfl
    · exact absurd hok hfalse
  have := process_children_ok_false_of world fuel
    (process_sitemap_ok_false world fuel) cs s hsf
  rw [this] at h
  exact Bool.noConfusion h

lemma process_sitemap_ok_true (world : List (String × FetchResult)) (fuel : Nat)
    (url : String) (s : WalkState)
    (h : (process_sitemap world fuel url s).ok = true) : s.ok = true := by
  by_contra hfalse
  have hsf : s.ok = false := by
    cases hok : s.ok
    · rfl
    · exact absurd hok hfalse
  have := process_sitemap_ok_false world fuel url s hsf
  rw [this] at h
  exact Bool.noConfusion h

lemma process_children_succ_of (world : List (String × FetchResult)) (fuel : Nat)
    (ihS : ∀ url s, (process_sitemap world fuel url s).ok = true →
        process_sitemap world (fuel + 1) url s = process_sitemap world fuel url s) :
    ∀ cs s, (process_children world fuel cs s).ok = true →
      process_children world (fuel + 1) cs s = process_children world fuel cs s := by
  intro cs
  induction cs with
  | nil => intro s _; simp only [process_children]
  | cons c cs ihc =>
    intro s h
    simp only [process_children] at h ⊢
    have hmid : (process_sitemap world fuel c s).ok = true := by
      by_contra hfalse
      have hsf : (process_sitemap world fuel c s).ok = false := by
        cases hok : (process_sitemap world fuel c s).ok
        · rfl
        · exact absurd hok hfalse
      have := process_children_ok_false_of world fuel
        (process_sitemap_ok_false world fuel) cs _ hsf
      rw [this] at h
      exact Bool.noConfusion h
    rw [ihS c s hmid]
    exact ihc (process_sitemap world fuel c s) h

lemma process_sitemap_succ (world : List (String × FetchResult)) :
    ∀ fuel url s, (process_sitemap world fuel url s).ok = true →
      process_sitemap world (fuel + 1) url s = process_sitemap world fuel url s := by
  intro fuel
  induction fuel with
  | zero =>
    intro url s h
    simp [process_sitemap] at h
  | succ fuel ih =>
    intro url s h
    by_cases hv : url ∈ s.visited
    · simp [process_sitemap, hv]
    · cases hf : fetchW world url with
      | failure => simp [process_sitemap, hv, hf]
      | leafDoc entries => simp [process_sitemap, hv, hf]
      | indexDoc children =>
        simp only [process_sitemap, if_neg hv, hf] at h ⊢
        exact process_children_succ_of world fuel ih children _ h

lemma process_sitemap_fuel_add (world : List (String × FetchResult))
    (fuel : Nat) (url : String) (s : WalkState)
    (h : (process_sitemap world fuel url s).ok = true) :
    ∀ d, process_sitemap world (fuel + d) url s = process_sitemap world fuel url s := by
  intro d
  induction d with
  | zero => rfl
  | succ d ihd =>
    have hok : (process_sitemap world (fuel + d) url s).ok = true := by
      rw [ihd]; exact h
    calc process_sitemap world (fuel + (d + 1)) url s
        = process_sitemap world ((fuel + d) + 1) url s := by rw [Nat.add_succ]
      _ = process_sitemap world (fuel + d) url s := process_sitemap_succ world (fuel + d) url s hok
      _ = process_sitemap world fuel url s := ihd

/-- Claim C2: for every sitemap graph — including one whose index references
itself directly or transitively — the recursive walk terminates: with fuel
exceeding the number of distinct sitemap URLs the modelled network can serve,
the fuel cut-off is never reached (the `ok` flag survives) and the result is
stable under any larger fuel; moreover each distinct sitemap URL is fetched
at most once per cycle (the fetch log has no duplicates). -/
theorem sitemap_walk_terminates (world : List (String × FetchResult)) (root : String) :
    (process_sitemap world (walkFuel world) root initWalkState).ok = true
  ∧ (∀ fuel, walkFuel world ≤ fuel →
      fetch_and_parse_sitemap world fuel root
        = fetch_and_parse_sitemap world (walkFuel world) root)
  ∧ (process_sitemap world (walkFuel world) root initWalkState).fetched.Nodup := by
  have hcount : unvisitedCount world initWalkState.visited < walkFuel world := by
    show unvisitedCount world ([] : List String) < walkFuel world
    unfold unvisitedCount walkFuel
    have hfil : ((dedupKeys world).filter fun k => !(decide (k ∈ ([] : List String))))
        = dedupKeys world := by simp
    rw [hfil]
    exact Nat.lt_succ_self _
  have hok : (process_sitemap world (walkFuel world) root initWalkState).ok = true :=
    process_sitemap_ok world (walkFuel world) root initWalkState hcount
  refine ⟨hok, ?_, ?_⟩
  · intro fuel hfuel
    have hd : fuel = walkFuel world + (fuel - walkFuel world) := by omega
    rw [hd]
    unfold fetch_and_parse_sitemap
    rw [process_sitemap_fuel_add world (walkFuel world) root initWalkState hok]
  · obtain ⟨t, hvis, hfet, _, hnd, _⟩ :=
      process_sitemap_extends world (walkFuel world) root initWalkState
    rw [hfet]
    simpa [initWalkState] using hnd

/-- Witness for C2 on a concrete cyclic sitemap graph: the index references
itself and one leaf; the walk completes with the sufficient fuel and the
result is unchanged at fuel 10. -/
theorem sitemap_walk_terminates_witness :
    (process_sitemap
        [("idx", FetchResult.indexDoc ["idx", "leaf"]),
         ("leaf", FetchResult.leafDoc [⟨"a", none⟩])]
        (walkFuel
          [("idx", FetchResult.indexDoc ["idx", "leaf"]),
           ("leaf", FetchResult.leafDoc [⟨"a", none⟩])])
        "idx" initWalkState).ok = true
  ∧ fetch_and_parse_sitemap
        [("idx", FetchResult.indexDoc ["idx", "leaf"]),
         ("leaf", FetchResult.leafDoc [⟨"a", none⟩])] 10 "idx"
      = fetch_and_parse_sitemap
        [("idx", FetchResult.indexDoc ["idx", "leaf"]),
         ("leaf", FetchResult.leafDoc [⟨"a", none⟩])]
        (walkFuel
          [("idx", FetchResult.indexDoc ["idx", "leaf"]),
           ("leaf", FetchResult.leafDoc [⟨"a", none⟩])])
        "idx" :=
  ⟨(sitemap_walk_terminates
      [("idx", FetchResult.indexDoc ["idx", "leaf"]),
       ("leaf", FetchResult.leafDoc [⟨"a", none⟩])] "idx").1,
   (sitemap_walk_terminates
      [("idx", FetchResult.indexDoc ["idx", "leaf"]),
       ("leaf", FetchResult.leafDoc [⟨"a", none⟩])] "idx").2.1 10 (by decide)⟩

/-- Claim C5: during the recursive walk every node whose fetch fails
contributes zero entries while the walk continues with the remaining
siblings — the accumulated entry list equals exactly the concatenated
contributions of the visited nodes, where a node contributes its parsed
entries if it fetched as a regular sitemap and nothing if its fetch failed
(or it was an index). -/
theorem failed_sitemap_nodes_skipped (world : List (String × FetchResult))
    (fuel : Nat) (root : String) :
    ((fetch_and_parse_sitemap world fuel root).1
        = leafContrib world (fetch_and_parse_sitemap world fuel root).2)
  ∧ (∀ u, fetchW world u = FetchResult.failure → leafEntriesOf world u = []) := by
  constructor
  · obtain ⟨t, hvis, _, hall, _, _⟩ :=
      process_sitemap_extends world fuel root initWalkState
    show (process_sitemap world fuel root initWalkState).all_urls
        = leafContrib world (process_sitemap world fuel root initWalkState).visited
    rw [hvis, hall]
    simp [initWalkState]
  · intro u h
    simp [leafEntriesOf, h]

/-- Witness for C5 on a concrete world: an index with a good leaf, a failing
node and a second good leaf; the failing node's contribution is empty. -/
theorem failed_sitemap_nodes_skipped_witness :
    ((fetch_and_parse_sitemap
        [("idx", FetchResult.indexDoc ["s1", "bad", "s2"]),
         ("s1", FetchResult.leafDoc [⟨"a", none⟩]),
         ("s2", FetchResult.leafDoc [⟨"b", none⟩])] 5 "idx").1
        = leafContrib
            [("idx", FetchResult.indexDoc ["s1", "bad", "s2"]),
             ("s1", FetchResult.leafDoc [⟨"a", none⟩]),
             ("s2", FetchResult.leafDoc [⟨"b", none⟩])]
            (fetch_and_parse_sitemap
              [("idx", FetchResult.indexDoc ["s1", "bad", "s2"]),
               ("s1", FetchResult.leafDoc [⟨"a", none⟩]),
               ("s2", FetchResult.leafDoc [⟨"b", none⟩])] 5 "idx").2)
  ∧ leafEntriesOf
      [("idx", FetchResult.indexDoc ["s1", "bad", "s2"]),
       ("s1", FetchResult.leafDoc [⟨"a", none⟩]),
       ("s2", FetchResult.leafDoc [⟨"b", none⟩])] "bad" = [] :=
  ⟨(failed_sitemap_nodes_skipped
      [("idx", FetchResult.indexDoc ["s1", "bad", "s2"]),
       ("s1", FetchResult.leafDoc [⟨"a", none⟩]),
       ("s2", FetchResult.leafDoc [⟨"b", none⟩])] 5 "idx").1,
   (failed_sitemap_nodes_skipped
      [("idx", FetchResult.indexDoc ["s1", "bad", "s2"]),
       ("s1", FetchResult.leafDoc [⟨"a", none⟩]),
       ("s2", FetchResult.leafDoc [⟨"b", none⟩])] 5 "idx").2 "bad" (by decide)⟩

/-- Claim C10: every sitemap URL is added to the visited set at the same
moment its fetch is attempted (before the fetch outcome is known), so the
fetch log equals the visited list exactly — a URL whose fetch or parse
failed is in the visited set, is never re-fetched when referenced again
(the visited list has no duplicates), and the visited set returned by
`fetch_and_parse_sitemap` counts failed and unparseable nodes as
traversed. -/
theorem visited_equals_fetch_log (world : List (String × FetchResult))
    (fuel : Nat) (root : String) :
    ((process_sitemap world fuel root initWalkState).fetched
        = (fetch_and_parse_sitemap world fuel root).2)
  ∧ (fetch_and_parse_sitemap world fuel root).2.Nodup := by
  obtain ⟨t, hvis, hfet, _, hnd, _⟩ :=
    process_sitemap_extends world fuel root initWalkState
  constructor
  · show (process_sitemap world fuel root initWalkState).fetched
      = (process_sitemap world fuel root initWalkState).visited
    rw [hvis, hfet]
    rfl
  · show (process_sitemap world fuel root initWalkState).visited.Nodup
    rw [hvis]
    simpa [initWalkState] using hnd

/-- Counterexample to claim C4 as stated: a terminal 4xx response does not
fail immediately — `raise_for_status` turns it into an `HTTPError`, which is
a `RequestException` and hence retried.  With every attempt answering 404,
`make_request` makes all 3 attempts (sleeping 2s and 4s in between) before
raising the terminal error, instead of failing after 1 attempt. -/
theorem make_request_4xx_retried_counterexample :
    make_request (fun _ => AttemptOutcome.status 404)
        = ⟨none, 3, [2, 4]⟩
  ∧ (make_request (fun _ => AttemptOutcome.status 404)).attempts_made ≠ 1 := by
  constructor
  · rfl
  · decide

/-- Claim C4 (amended): `make_request` retries transient failures
(connection errors, timeouts, 5xx) — and equally 4xx responses, since
`raise_for_status` raises a `RequestException` for every status ≥ 400 —
up to a ceiling of 3 attempts with exponential backoff of base 2s capped at
10s.  A fetch failing twice and succeeding on the third attempt returns the
successful response after sleeping 2s then 4s; a fetch whose three attempts
all fail raises a terminal error after 3 attempts; a first-attempt 4xx
response is retried rather than failing immediately. -/
theorem make_request_retry_policy (env : Nat → AttemptOutcome) :
    (∀ c, attempt_succeeds (env 1) = false → attempt_succeeds (env 2) = false →
      env 3 = AttemptOutcome.status c → c < 400 →
      make_request env = ⟨some c, 3, [wait_exponential 1, wait_exponential 2]⟩
        ∧ wait_exponential 1 = 2 ∧ wait_exponential 2 = 4)
  ∧ ((∀ i, 1 ≤ i → i ≤ 3 → attempt_succeeds (env i) = false) →
      (make_request env).result = none ∧ (make_request env).attempts_made = 3
        ∧ (make_request env).waits = [2, 4])
  ∧ (∀ c, env 1 = AttemptOutcome.status c → 400 ≤ c →
      2 ≤ (make_request env).attempts_made)
  ∧ (∀ n, 1 ≤ n → 2 ≤ wait_exponential n ∧ wait_exponential n ≤ 10) := by
  refine ⟨?_, ?_, ?_, ?_⟩
  · intro c h1 h2 h3 hc
    have hs3 : attempt_succeeds (env 3) = true := by
      rw [h3]; simp [attempt_succeeds, hc]
    constructor
    · unfold make_request retry_go
      rw [h1]
      simp only [if_false, Bool.false_eq_true]
      unfold retry_go
      rw [h2]
      simp only [if_false, Bool.false_eq_true]
      unfold retry_go
      rw [hs3, h3]
      simp
    · exact ⟨rfl, rfl⟩
  · intro hall
    have h1 := hall 1 (by omega) (by omega)
    have h2 := hall 2 (by omega) (by omega)
    have h3 := hall 3 (by omega) (by omega)
    unfold make_request retry_go
    rw [h1]
    simp only [if_false, Bool.false_eq_true]
    unfold retry_go
    rw [h2]
    simp only [if_false, Bool.false_eq_true]
    unfold retry_go
    rw [h3]
    simp [wait_exponential]
  · intro c h1 hc
    have hs1 : attempt_succeeds (env 1) = false := by
      rw [h1]; simp [attempt_succeeds]; omega
    unfold make_request retry_go
    rw [hs1]
    simp only [if_false, Bool.false_eq_true]
    cases hs2 : attempt_succeeds (env 2) with
    | true =>
      unfold retry_go
      rw [hs2]
      cases h2 : env 2 with
      | status c2 => simp
      | connError => rw [h2] at hs2; simp [attempt_succeeds] at hs2
      | timeoutError => rw [h2] at hs2; simp [attempt_succeeds] at hs2
    | false =>
      unfold retry_go
      rw [hs2]
      cases hs3 : attempt_succeeds (env 3) with
      | true =>
        unfold retry_go
        rw [hs3]
        cases h3 : env 3 with
        | status c3 => simp
        | connError => rw [h3] at hs3; simp [attempt_succeeds] at hs3
        | timeoutError => rw [h3] at hs3; simp [attempt_succeeds] at hs3
      | false =>
        unfold retry_go
        rw [hs3]
        simp
  · intro n hn
    constructor
    · exact le_max_left _ _
    · have h2 : (2 : Nat) ≤ 10 := by omega
      have hmin : min (2 ^ n) 10 ≤ 10 := min_le_right _ _
      exact max_le h2 hmin

/-- Witness for C4 (amended) at a concrete environment: connection error,
then timeout, then a 200 response. -/
theorem make_request_retry_policy_witness :
    make_request (fun i =>
        if i = 1 then AttemptOutcome.connError
        else if i = 2 then AttemptOutcome.timeoutError
        else AttemptOutcome.status 200)
      = ⟨some 200, 3, [wait_exponential 1, wait_exponential 2]⟩ :=
  ((make_request_retry_policy (fun i =>
      if i = 1 then AttemptOutcome.connError
      else if i = 2 then AttemptOutcome.timeoutError
      else AttemptOutcome.status 200)).1 200
    (by decide) (by decide) (by decide) (by decide)).1

/-- Claim C9: a gzip-encoded body fetched from a URL ending in `.gz` (or
flagged by the gzip content type) is transparently decompressed before XML
parsing; corrupt gzip content makes `fetch_sitemap` return `None` instead of
raising, and in the walk a node whose fetch returns `None` contributes zero
entries. -/
theorem gzip_sitemap_decompressed (sitemap_url : String) (r : HttpResponse)
    (d : String) :
    ((str_ends_with sitemap_url ".gz" = true
        ∨ r.content_type = some "application/x-gzip") →
      r.content = Payload.gzipped d →
      fetch_sitemap sitemap_url (some r) = some (Payload.plain d))
  ∧ ((str_ends_with sitemap_url ".gz" = true
        ∨ r.content_type = some "application/x-gzip") →
      r.content = Payload.corrupt →
      fetch_sitemap sitemap_url (some r) = none)
  ∧ (∀ (world : List (String × FetchResult)) (fuel : Nat) (s : WalkState),
      fetchW world sitemap_url = FetchResult.failure →
      (process_sitemap world (fuel + 1) sitemap_url s).all_urls = s.all_urls) := by
  have hflag : (str_ends_with sitemap_url ".gz" = true
        ∨ r.content_type = some "application/x-gzip") →
      (r.content_type == some "application/x-gzip" || str_ends_with sitemap_url ".gz") = true := by
    intro h
    rcases h with h | h
    · simp [h]
    · simp [h]
  refine ⟨?_, ?_, ?_⟩
  · intro h hc
    rw [fetch_sitemap]
    rw [if_pos (hflag h), hc]
    rfl
  · intro h hc
    rw [fetch_sitemap]
    rw [if_pos (hflag h), hc]
    rfl
  · intro world fuel s hfail
    by_cases hv : sitemap_url ∈ s.visited
    · simp [process_sitemap, hv]
    · simp [process_sitemap, hv, hfail]

/-- Witness for C9: a gzipped body under a `.gz` URL decompresses; a corrupt
body under the gzip content type yields `none`; a failing node in a concrete
world contributes no entries. -/
theorem gzip_sitemap_decompressed_witness :
    fetch_sitemap "https://s.example/sitemap.xml.gz"
        (some ⟨none, Payload.gzipped "doc"⟩) = some (Payload.plain "doc")
  ∧ fetch_sitemap "https://s.example/sitemap.xml"
        (some ⟨some "application/x-gzip", Payload.corrupt⟩) = none
  ∧ (process_sitemap [] 4 "https://s.example/sitemap.xml.gz" initWalkState).all_urls
      = initWalkState.all_urls :=
  ⟨(gzip_sitemap_decompressed "https://s.example/sitemap.xml.gz"
      ⟨none, Payload.gzipped "doc"⟩ "doc").1 (Or.inl (by decide)) rfl,
   (gzip_sitemap_decompressed "https://s.example/sitemap.xml"
      ⟨some "application/x-gzip", Payload.corrupt⟩ "doc").2.1 (Or.inr rfl) rfl,
   (gzip_sitemap_decompressed "https://s.example/sitemap.xml.gz"
      ⟨none, Payload.gzipped "doc"⟩ "doc").2.2 [] 3 initWalkState rfl⟩

/-- Counterexample to claim C3 as stated: the pages commit and the
last-crawled-timestamp commit are two separate transactions.  With the first
commit succeeding and the second failing, the new rows are persisted while
the site's last-crawled timestamp is not — neither "all mutations applied"
nor "none applied". -/
theorem commit_phase_not_atomic_counterexample :
    ((commit_phase (fun k => k == 0) [⟨"https://s.example/a", none, 1, 2, false⟩] 5
        ⟨"success", 1, "ok"⟩ ⟨[], none, []⟩).1.pages
      = [⟨"https://s.example/a", none, 1, 2, false⟩])
  ∧ (commit_phase (fun k => k == 0) [⟨"https://s.example/a", none, 1, 2, false⟩] 5
        ⟨"success", 1, "ok"⟩ ⟨[], none, []⟩).1.site_last_crawled_at = none
  ∧ (commit_phase (fun k => k == 0) [⟨"https://s.example/a", none, 1, 2, false⟩] 5
        ⟨"success", 1, "ok"⟩ ⟨[], none, []⟩).2 = false := by
  refine ⟨rfl, rfl, rfl⟩

/-- Claim C3 (amended): the new `DiscoveredPage` rows and the last-seen
refreshes are committed together as one transaction (the first commit), so
if that commit fails nothing is applied; but the site's last-crawled
timestamp and the crawl log are committed by separate subsequent
transactions, so a failure after the first commit leaves the page mutations
persisted without the timestamp (and a failure after the second leaves both
without the log). -/
theorem commit_phase_behaviour (w : Nat → Bool) (pending_pages : List PageRec)
    (t_crawled : Nat) (log : CrawlLogRec) (db : Db) :
    (w 0 = false → (commit_phase w pending_pages t_crawled log db).1 = db
        ∧ (commit_phase w pending_pages t_crawled log db).2 = false)
  ∧ (w 0 = true → (commit_phase w pending_pages t_crawled log db).1.pages = pending_pages)
  ∧ (w 0 = true → w 1 = false →
      (commit_phase w pending_pages t_crawled log db).1.site_last_crawled_at
          = db.site_last_crawled_at
        ∧ (commit_phase w pending_pages t_crawled log db).1.crawl_logs = db.crawl_logs
        ∧ (commit_phase w pending_pages t_crawled log db).2 = false)
  ∧ (w 0 = true → w 1 = true → w 2 = true →
      (commit_phase w pending_pages t_crawled log db).1
          = ⟨pending_pages, some t_crawled, db.crawl_logs ++ [log]⟩
        ∧ (commit_phase w pending_pages t_crawled log db).2 = true) := by
  refine ⟨?_, ?_, ?_, ?_⟩
  · intro h0
    simp [commit_phase, h0]
  · intro h0
    by_cases h1 : w 1
    · by_cases h2 : w 2
      · simp [commit_phase, h0, h1, h2]
      · simp [commit_phase, h0, h1, h2]
    · simp [commit_phase, h0, h1]
  · intro h0 h1
    simp [commit_phase, h0, h1]
  · intro h0 h1 h2
    simp [commit_phase, h0, h1, h2]

/-- Witness for C3 (amended) at a concrete input: all three commits
succeed. -/
theorem commit_phase_behaviour_witness :
    (commit_phase (fun _ => true) [⟨"https://s.example/a", none, 1, 2, false⟩] 5
        ⟨"success", 1, "ok"⟩ ⟨[], none, []⟩).1
      = ⟨[⟨"https://s.example/a", none, 1, 2, false⟩], some 5, [⟨"success", 1, "ok"⟩]⟩ :=
  ((commit_phase_behaviour (fun _ => true) [⟨"https://s.example/a", none, 1, 2, false⟩] 5
      ⟨"success", 1, "ok"⟩ ⟨[], none, []⟩).2.2.2 rfl rfl rfl).1

/-- Counterexample to claim C6 as stated: the history write is not
best-effort.  When the crawl-log commit in the `except` branch fails, the
resulting exception is not caught — `handle_process_site_error` raises
instead of returning a failure outcome, contradicting "a secondary failure
during this failure handling is logged and not re-raised". -/
theorem error_branch_reraises_counterexample :
    handle_process_site_error ⟨true, false, true⟩ "boom" = ErrOutcome.raised
  ∧ ∀ (ok : Bool) (n : Nat) (log : CrawlLogRec) (notified : Bool),
      handle_process_site_error ⟨true, false, true⟩ "boom"
        ≠ ErrOutcome.returned ok n log notified := by
  constructor
  · rfl
  · intro ok n log notified
    simp [handle_process_site_error]

/-- Claim C6 (amended): when the crawl-log commit succeeds, the orchestrator
records a `CrawlLog` with status `failed` carrying the error text, attempts
an error notification exactly when the site has notifications enabled, and
returns a failure outcome; the notification attempt is best-effort — its
delivery result never changes the outcome — but the history write is not:
if its commit fails, the exception propagates out of `process_site`. -/
theorem error_branch_behaviour (c : ErrorCtx) (err : String) :
    (c.log_commit_ok = true →
      handle_process_site_error c err
        = ErrOutcome.returned false 0 ⟨"failed", 0, "处理失败: " ++ err⟩
            c.notification_enabled)
  ∧ (c.log_commit_ok = false → handle_process_site_error c err = ErrOutcome.raised)
  ∧ handle_process_site_error { c with notify_delivery_ok := true } err
      = handle_process_site_error { c with notify_delivery_ok := false } err := by
  refine ⟨?_, ?_, ?_⟩
  · intro h
    simp [handle_process_site_error, h]
  · intro h
    simp [handle_process_site_error, h]
  · simp [handle_process_site_error]

/-- Witness for C6 (amended) at a concrete input: notifications enabled and
a successful crawl-log commit. -/
theorem error_branch_behaviour_witness :
    handle_process_site_error ⟨true, true, true⟩ "boom"
      = ErrOutcome.returned false 0 ⟨"failed", 0, "处理失败: " ++ "boom"⟩ true :=
  (error_branch_behaviour ⟨true, true, true⟩ "boom").1 rfl
